import Mathlib

/-!
# go-qq-bot: signature protocol and webhook opcode routing

A shallow embedding of the security-relevant core of the repository:

* `internal/signature/signer.go`  — `deriveKeyFromSecret`, `NewSigner`,
  `Signer.VerifySignature`, `Signer.SignVerification`;
* `internal/signature/middleware.go` — `SignatureMiddleware`, `validateTimestamp`;
* `internal/handler/webhook.go` — `HandleWebhook`, `handleVerification`, `handleEvent`;
* `internal/model/webhook.go`, `internal/service/event.go` — the data model and
  the event dispatcher.

Go strings and byte slices are lists of bytes.  The Go standard library pieces
the code calls (`encoding/hex`, `strconv.ParseInt`, `time`) are modelled next to
their callers; the curve arithmetic of `crypto/ed25519` is a parameter.
-/

namespace GoQQBot

/-! ## Bytes and strings -/

deriving instance DecidableEq for Except

/-- A Go `byte`. -/
abbrev Byte := Fin 256

/-- A Go `string` (equally a `[]byte`): a sequence of bytes. -/
abbrev GoString := List Byte

/-- UTF-8 encoding of one code point, as Go stores string literals. -/
def utf8EncodeChar (c : Char) : List Byte :=
  let v := c.toNat
  if v < 128 then [Fin.ofNat v]
  else if v < 2048 then [Fin.ofNat (192 + v / 64), Fin.ofNat (128 + v % 64)]
  else if v < 65536 then
    [Fin.ofNat (224 + v / 4096), Fin.ofNat (128 + v / 64 % 64), Fin.ofNat (128 + v % 64)]
  else
    [Fin.ofNat (240 + v / 262144), Fin.ofNat (128 + v / 4096 % 64),
     Fin.ofNat (128 + v / 64 % 64), Fin.ofNat (128 + v % 64)]

/-- The bytes of a string literal. -/
def bytesOf (s : String) : GoString := s.toList.flatMap utf8EncodeChar

/-! ## `encoding/hex` -/

namespace hex

/-- The constant `hextable = "0123456789abcdef"` of `encoding/hex`. -/
def hextable : List Byte :=
  [48, 49, 50, 51, 52, 53, 54, 55, 56, 57, 97, 98, 99, 100, 101, 102]

/-- The table `reverseHexTable` of `encoding/hex`: the value of a hexadecimal
digit (either case), and `0xff` for every other byte. -/
def reverseHexTable (c : Byte) : Nat :=
  if 48 ≤ c.val ∧ c.val ≤ 57 then c.val - 48
  else if 97 ≤ c.val ∧ c.val ≤ 102 then c.val - 87
  else if 65 ≤ c.val ∧ c.val ≤ 70 then c.val - 55
  else 255

/-- The errors of `hex.Decode`: `InvalidByteError` and `ErrLength`. -/
inductive DecodeError where
  | InvalidByteError (b : Byte)
  | ErrLength
  deriving DecidableEq, Repr

/-- The function `hex.EncodeToString`: two digits of `hextable` per byte, `v >> 4` then
`v & 0x0f`. -/
def EncodeToString : List Byte → GoString
  | [] => []
  | v :: rest =>
    hextable.getD (v.val >>> 4) 0 :: hextable.getD (v.val &&& 15) 0 :: EncodeToString rest

/-- The function `hex.DecodeString` (the loop of `hex.Decode`): pairs of digits become
bytes `(a << 4) | b`; the first non-digit gives `InvalidByteError`, and an odd
length whose last byte is a digit gives `ErrLength`. -/
def DecodeString : GoString → Except DecodeError (List Byte)
  | [] => .ok []
  | [p] => if reverseHexTable p > 15 then .error (.InvalidByteError p) else .error .ErrLength
  | p :: q :: rest =>
    let a := reverseHexTable p
    let b := reverseHexTable q
    if a > 15 then .error (.InvalidByteError p)
    else if b > 15 then .error (.InvalidByteError q)
    else
      match DecodeString rest with
      | .ok bs => .ok (Fin.ofNat (a <<< 4 ||| b) :: bs)
      | .error e => .error e

end hex

/-! ## `crypto/ed25519` -/

/-- The operations of `crypto/ed25519` the signer calls.  The curve arithmetic is
not part of this repository and is kept as a parameter.  The Go functions
panic on keys of the wrong length; every key `NewSigner` builds has the right
one, and the signers considered below are the ones `NewSigner` returns. -/
structure Ed25519 where
  /-- Go's `ed25519.NewKeyFromSeed(seed)`. -/
  NewKeyFromSeed : List Byte → List Byte
  /-- Go's `privateKey.Public().(ed25519.PublicKey)`. -/
  Public : List Byte → List Byte
  /-- Go's `ed25519.Sign(privateKey, message)`. -/
  Sign : List Byte → List Byte → List Byte
  /-- Go's `ed25519.Verify(publicKey, message, sig)`. -/
  Verify : List Byte → List Byte → List Byte → Bool

/-- The constant `ed25519.SeedSize`. -/
def SeedSize : Nat := 32

/-- The constant `ed25519.SignatureSize`. -/
def SignatureSize : Nat := 64

/-- The contract of Ed25519 the protocol relies on: signatures are 64 bytes, and
a signature made with the private key of a seed verifies against the public
key of the same seed (RFC 8032 correctness). -/
structure Ed25519.Lawful (ed : Ed25519) : Prop where
  sign_length : ∀ priv msg, (ed.Sign priv msg).length = SignatureSize
  verify_sign : ∀ seed msg, seed.length = SeedSize →
    ed.Verify (ed.Public (ed.NewKeyFromSeed seed)) msg
      (ed.Sign (ed.NewKeyFromSeed seed) msg) = true

/-- A 64-byte tag of a message under a key: the byte sum, repeated.  Used only by
`toyEd25519`. -/
def toyTag (key msg : List Byte) : List Byte :=
  List.replicate 64 ((key ++ msg).foldl (fun acc b => acc + b) 0)

/-- A small instance of the `Ed25519` interface (the public key is the seed, the
signature a checksum).  It has no security; it shows that `Ed25519.Lawful` is
satisfiable and lets the statements below be evaluated on concrete inputs. -/
def toyEd25519 : Ed25519 where
  NewKeyFromSeed seed := seed ++ seed
  Public priv := priv.drop 32
  Sign priv msg := toyTag (priv.drop 32) msg
  Verify pub msg sig := sig == toyTag pub msg

/-! ## `internal/signature/signer.go` -/

/-- The errors the signer returns (`fmt.Errorf` in the source). -/
inductive SignerError where
  /-- Message "appSecret cannot be empty". -/
  | emptyAppSecret
  /-- Message "secret cannot be empty". -/
  | emptySecret
  /-- Message "failed to derive key from secret: %w". -/
  | deriveFailed
  /-- Message "invalid signature format: %w". -/
  | invalidSignatureFormat (e : hex.DecodeError)
  /-- Message "invalid signature length: expected %d, got %d". -/
  | invalidSignatureLength (expected got : Nat)
  /-- Message "signature verification failed". -/
  | verificationFailed
  deriving DecidableEq, Repr

/-- The struct `Signer`. -/
structure Signer where
  privateKey : List Byte
  publicKey : List Byte
  deriving DecidableEq, Repr

/-- The loop `for i := 0; i < ed25519.SeedSize; i++ { seed[i] = secretBytes[i%len(secretBytes)] }`
of `deriveKeyFromSecret`, with `n` iterations left to run from index `i`. -/
def deriveKeyFromSecret.loop (secretBytes : List Byte) : Nat → Nat → List Byte → List Byte
  | 0, _, seed => seed
  | n + 1, i, seed =>
    deriveKeyFromSecret.loop secretBytes n (i + 1)
      (seed.set i (secretBytes.getD (i % secretBytes.length) 0))

/-- The function `deriveKeyFromSecret`: an error on the empty secret, otherwise
`make([]byte, 32)` filled by the loop. -/
def deriveKeyFromSecret (secret : GoString) : Except SignerError (List Byte) :=
  if secret = [] then .error .emptySecret
  else
    let seed := List.replicate SeedSize (0 : Byte)
    let secretBytes := secret
    .ok (deriveKeyFromSecret.loop secretBytes SeedSize 0 seed)

/-- The function `NewSigner`. -/
def NewSigner (ed : Ed25519) (appSecret : GoString) : Except SignerError Signer :=
  if appSecret = [] then .error .emptyAppSecret
  else
    match deriveKeyFromSecret appSecret with
    | .error _ => .error .deriveFailed
    | .ok seed =>
      let privateKey := ed.NewKeyFromSeed seed
      let publicKey := ed.Public privateKey
      .ok { privateKey := privateKey, publicKey := publicKey }

/-- The method `Signer.VerifySignature`; `.ok ()` is Go's `nil` error. -/
def Signer.VerifySignature (ed : Ed25519) (s : Signer) (timestamp : GoString)
    (body : List Byte) (signatureHex : GoString) : Except SignerError Unit :=
  match hex.DecodeString signatureHex with
  | .error e => .error (.invalidSignatureFormat e)
  | .ok signature =>
    if signature.length ≠ SignatureSize then
      .error (.invalidSignatureLength SignatureSize signature.length)
    else
      let message := timestamp ++ body
      if !ed.Verify s.publicKey message signature then .error .verificationFailed
      else .ok ()

/-- The method `Signer.SignVerification`; it returns `(string, error)` and the
error is always `nil`. -/
def Signer.SignVerification (ed : Ed25519) (s : Signer) (eventTs plainToken : GoString) :
    Except SignerError GoString :=
  let message := eventTs ++ plainToken
  let signature := ed.Sign s.privateKey message
  .ok (hex.EncodeToString signature)

/-! ## `strconv.ParseInt` -/

namespace strconv

/-- The two causes of a `*strconv.NumError`: `ErrSyntax` and `ErrRange`. -/
inductive NumError where
  | ErrSyntax
  | ErrRange
  deriving DecidableEq, Repr

/-- The constant `maxUint64`. -/
def maxUint64 : Nat := 18446744073709551615

/-- The digit loop of `strconv.ParseUint(s, 10, 64)`.  A byte that is not a
decimal digit is a syntax error (a letter has digit value at least 10, the
base); `n >= cutoff` with `cutoff = maxUint64/10 + 1`, or an overflowing
`n*10 + d`, is a range error. -/
def ParseUint.loop : List Byte → Nat → Except NumError Nat
  | [], n => .ok n
  | c :: cs, n =>
    if 48 ≤ c.val ∧ c.val ≤ 57 then
      let d := c.val - 48
      if n ≥ maxUint64 / 10 + 1 then .error .ErrRange
      else
        let n := n * 10
        let n1 := (n + d) % 2 ^ 64
        if n1 < n ∨ n1 > maxUint64 then .error .ErrRange
        else ParseUint.loop cs n1
    else .error .ErrSyntax

/-- The call `strconv.ParseUint(s, 10, 64)`. -/
def ParseUint (s : GoString) : Except NumError Nat :=
  if s = [] then .error .ErrSyntax else ParseUint.loop s 0

/-- The call `strconv.ParseInt(s, 10, 64)`: an optional sign, then `ParseUint`; a
range error of `ParseUint` leaves `un = maxUint64`, which the cutoff test
`1 << 63` then reports as a range error. -/
def ParseInt (s : GoString) : Except NumError Int :=
  match s with
  | [] => .error .ErrSyntax
  | c :: rest =>
    let neg := decide (c.val = 45)
    let s := if c.val = 43 then rest else if c.val = 45 then rest else c :: rest
    let r := ParseUint s
    if r = .error .ErrSyntax then .error .ErrSyntax
    else
      let un : Nat := match r with
        | .ok un => un
        | .error _ => maxUint64
      let cutoff : Nat := 2 ^ 63
      if neg = false ∧ un ≥ cutoff then .error .ErrRange
      else if neg = true ∧ un > cutoff then .error .ErrRange
      else .ok (if neg then -(un : Int) else (un : Int))

end strconv

/-! ## `time` -/

namespace time

/-- The constant `time.Second`, in nanoseconds (a `Duration` is an `int64` count of
nanoseconds). -/
def Second : Int := 1000000000

/-- The constant `time.Minute`. -/
def Minute : Int := 60 * Second

/-- The constant `minDuration = -1 << 63`. -/
def minDuration : Int := -(2 ^ 63)

/-- The constant `maxDuration = 1<<63 - 1`. -/
def maxDuration : Int := 2 ^ 63 - 1

/-- Two's-complement wrap-around of `int64` arithmetic. -/
def wrapInt64 (x : Int) : Int := (x + 2 ^ 63) % 2 ^ 64 - 2 ^ 63

/-- The constant `unixToInternal`: seconds from January 1, year 1 to the Unix epoch. -/
def unixToInternal : Int := (1969 * 365 + 1969 / 4 - 1969 / 100 + 1969 / 400) * 86400

/-- An instant as `time.Time` reads it: `sec` is `t.sec()`, the `int64` seconds since
January 1 of year 1, and `nsec` is `t.nsec()`, in `[0, 999999999]`. -/
structure Time where
  sec : Int
  nsec : Int
  deriving DecidableEq, Repr

/-- The call `time.Unix(sec, 0)`: `unixTime` stores `sec + unixToInternal`, an `int64` sum. -/
def Unix (sec : Int) : Time := { sec := wrapInt64 (sec + unixToInternal), nsec := 0 }

/-- The method `t.Sub(u)` for wall-clock readings (the time of `time.Unix` carries no
monotonic reading): the difference `t - u` in nanoseconds, and `minDuration` or
`maxDuration` when it does not fit in a `Duration`. -/
def Time.Sub (t u : Time) : Int :=
  let d := (t.sec - u.sec) * Second + (t.nsec - u.nsec)
  if d < minDuration then minDuration
  else if d > maxDuration then maxDuration
  else d

end time

/-! ## `internal/signature/middleware.go` -/

/-- The errors of `validateTimestamp`: the error of `strconv.ParseInt`, or
`echo.NewHTTPError(http.StatusUnauthorized, "timestamp expired")`. -/
inductive TimestampError where
  | parse (e : strconv.NumError)
  | expired
  deriving DecidableEq, Repr

/-- The function `validateTimestamp`, with the reading of `time.Now()` as the argument
`now`.  `diff = -diff` is `int64` negation. -/
def validateTimestamp (now : time.Time) (timestampStr : GoString) : Except TimestampError Unit :=
  match strconv.ParseInt timestampStr with
  | .error err => .error (.parse err)
  | .ok timestamp =>
    let requestTime := time.Unix timestamp
    let diff := now.Sub requestTime
    let diff := if diff < 0 then time.wrapInt64 (-diff) else diff
    if diff > 5 * time.Minute then .error .expired
    else .ok ()

/-- The constant `http.StatusOK`. -/
def StatusOK : Nat := 200
/-- The constant `http.StatusBadRequest`. -/
def StatusBadRequest : Nat := 400
/-- The constant `http.StatusUnauthorized`. -/
def StatusUnauthorized : Nat := 401
/-- The constant `http.StatusInternalServerError`. -/
def StatusInternalServerError : Nat := 500

/-- An error of `io.ReadAll` on the request body. -/
structure ReadError where
  msg : GoString
  deriving DecidableEq, Repr

/-- What the middleware reads of an `echo.Context`: the URL path, the headers (keys
in canonical form, as `net/http` stores them), and what `io.ReadAll` returns on
the request body. -/
structure Request where
  path : GoString
  header : List (GoString × GoString)
  body : Except ReadError (List Byte)
  deriving DecidableEq, Repr

/-- The method `Header.Get`: the first value of the key, `""` when it is absent. -/
def Request.headerGet (r : Request) (key : GoString) : GoString :=
  match r.header.lookup key with
  | some v => v
  | none => []

/-- What the middleware does with a request: it calls `next(c)` (on the request with
its body made readable again), or it answers `c.JSON(status, {"error": msg})`. -/
inductive MiddlewareResult where
  | next (req : Request)
  | json (status : Nat) (error : GoString)
  deriving DecidableEq, Repr

/-- The handler `SignatureMiddleware(signer)(next)` returns, applied to one request. -/
def SignatureMiddleware (ed : Ed25519) (signer : Signer) (now : time.Time) (req : Request) :
    MiddlewareResult :=
  if req.path ≠ bytesOf "/webhook" then .next req
  else
    let timestamp := req.headerGet (bytesOf "X-Signature-Timestamp")
    let signature := req.headerGet (bytesOf "X-Signature-Ed25519")
    if timestamp = [] ∨ signature = [] then
      .json StatusUnauthorized (bytesOf "missing signature headers")
    else
      match validateTimestamp now timestamp with
      | .error _ => .json StatusUnauthorized (bytesOf "invalid or expired timestamp")
      | .ok () =>
        match req.body with
        | .error _ => .json StatusBadRequest (bytesOf "failed to read request body")
        | .ok body =>
          match signer.VerifySignature ed timestamp body signature with
          | .error _ => .json StatusUnauthorized (bytesOf "signature verification failed")
          | .ok () => .next { req with body := .ok body }

/-! ## `internal/model/webhook.go` -/

/-- A JSON value as `encoding/json` holds it in an `interface{}`: `nil`, `bool`,
`float64` (kept as its literal), `string`, `[]interface{}` and
`map[string]interface{}`.  The members of an object are listed in sorted key
order, the order in which `json.Marshal` writes a map. -/
inductive JSON where
  | null
  | bool (b : Bool)
  | number (literal : GoString)
  | string (s : GoString)
  | array (items : List JSON)
  | object (members : List (GoString × JSON))

/-- The struct `WebhookPayload`; `ID`, `Op` and `S` are `uint32`. -/
structure WebhookPayload where
  ID : Nat
  Op : Nat
  D : JSON
  S : Nat
  T : GoString

/-- The struct `VerificationPayload` (tags `plain_token`, `event_ts`). -/
structure VerificationPayload where
  PlainToken : GoString
  EventTs : GoString
  deriving DecidableEq, Repr

/-- The struct `VerificationResponse`. -/
structure VerificationResponse where
  PlainToken : GoString
  MsgSig : GoString
  ResponceTime : GoString
  deriving DecidableEq, Repr

/-- The struct `Author` (tags `id`, `user_openid`, `member_openid`). -/
structure Author where
  ID : GoString
  UserOpenID : GoString
  MemberOpenID : GoString
  deriving DecidableEq, Repr

/-- The struct `EventPayload` (tags `group_id`, `group_openid`, `author`, `content`,
`id`, `timestamp`); `Author` is a pointer, `none` when nil. -/
structure EventPayload where
  GroupID : GoString
  GroupOpenID : GoString
  Author : Option Author
  Content : GoString
  ID : GoString
  Timestamp : GoString
  deriving DecidableEq, Repr

/-- The type `EventType`, a string. -/
abbrev EventType := GoString

def GroupAtMessageCreate : EventType := bytesOf "GROUP_AT_MESSAGE_CREATE"
def C2cMessageCreate : EventType := bytesOf "C2C_MESSAGE_CREATE"
def FriendAdd : EventType := bytesOf "FRIEND_ADD"
def FriendDel : EventType := bytesOf "FRIEND_DEL"
def GroupAddRobot : EventType := bytesOf "GROUP_ADD_ROBOT"
def GroupDelRobot : EventType := bytesOf "GROUP_DEL_ROBOT"
def MessageCreate : EventType := bytesOf "MESSAGE_CREATE"
def MessageDelete : EventType := bytesOf "MESSAGE_DELETE"
def DirectMessageCreate : EventType := bytesOf "DIRECT_MESSAGE_CREATE"
def AtMessageCreate : EventType := bytesOf "AT_MESSAGE_CREATE"
def GuildCreate : EventType := bytesOf "GUILD_CREATE"
def GuildUpdate : EventType := bytesOf "GUILD_UPDATE"
def GuildDelete : EventType := bytesOf "GUILD_DELETE"

/-- How `encoding/json` writes a `VerificationResponse`: one member per field, in
field order, named by the field's `json` tag. -/
def VerificationResponse.toJSON (r : VerificationResponse) : JSON :=
  .object [(bytesOf "plain_token", .string r.PlainToken),
           (bytesOf "msg_sig", .string r.MsgSig),
           (bytesOf "responsce_time", .string r.ResponceTime)]

/-- The keys of a JSON object, in order; `none` for any other value. -/
def JSON.keys : JSON → Option (List GoString)
  | .object members => some (members.map Prod.fst)
  | _ => none

/-! ## `encoding/json` -/

/-- The errors of `json.Marshal` and `json.Unmarshal`. -/
inductive JSONError where
  | unsupportedValue
  | unmarshalType
  deriving DecidableEq, Repr

/-- The calls into `encoding/json` the handler makes: `json.Marshal(payload.D)`, and
`json.Unmarshal(data, &v)` for the two payload structs.  `Data` stands for the
marshalled bytes. -/
structure JSONCodec (Data : Type) where
  Marshal : JSON → Except JSONError Data
  UnmarshalVerification : Data → Except JSONError VerificationPayload
  UnmarshalEvent : Data → Except JSONError EventPayload

/-- Case folding of a member name as `encoding/json` does it for field lookup:
ASCII letters are upper-cased; U+212A (Kelvin sign) folds to `K` and U+017F
(long s) to `S`.  No other non-ASCII rune folds to an ASCII letter, and the
field names of this repository are ASCII, so other bytes are kept. -/
def foldName : List Byte → List Byte
  | [] => []
  | [a] => [if 97 ≤ a.val ∧ a.val ≤ 122 then Fin.ofNat (a.val - 32) else a]
  | [a, b] =>
    if a.val = 197 ∧ b.val = 191 then [83]
    else (if 97 ≤ a.val ∧ a.val ≤ 122 then Fin.ofNat (a.val - 32) else a) :: foldName [b]
  | a :: b :: c :: rest =>
    if a.val = 226 ∧ b.val = 132 ∧ c.val = 170 then 75 :: foldName rest
    else if a.val = 197 ∧ b.val = 191 then 83 :: foldName (c :: rest)
    else (if 97 ≤ a.val ∧ a.val ≤ 122 then Fin.ofNat (a.val - 32) else a) ::
      foldName (b :: c :: rest)

/-- Field lookup of `encoding/json`: the field whose tag is exactly the member name,
otherwise the first field whose tag equals it under case folding. -/
def lookupField (tags : List GoString) (key : GoString) : Option GoString :=
  match tags.find? (fun tag => tag = key) with
  | some tag => some tag
  | none => tags.find? (fun tag => foldName tag = foldName key)

/-- Decoding a JSON value into a Go `string` field holding `old`: a string is
stored, `null` leaves the field as it is, anything else is an
`UnmarshalTypeError` (the flag is `false`) and leaves the field as it is. -/
def decodeStringField (old : GoString) : JSON → GoString × Bool
  | .string s => (s, true)
  | .null => (old, true)
  | _ => (old, false)

/-- One member of an object decoded into a `VerificationPayload`; the flag records
that no `UnmarshalTypeError` was saved so far.  Unknown members are skipped. -/
def decodeVerificationMember (st : VerificationPayload × Bool) (m : GoString × JSON) :
    VerificationPayload × Bool :=
  match lookupField [bytesOf "plain_token", bytesOf "event_ts"] m.1 with
  | none => st
  | some tag =>
    if tag = bytesOf "plain_token" then
      let r := decodeStringField st.1.PlainToken m.2
      ({ st.1 with PlainToken := r.1 }, st.2 && r.2)
    else
      let r := decodeStringField st.1.EventTs m.2
      ({ st.1 with EventTs := r.1 }, st.2 && r.2)

/-- The call `json.Unmarshal(data, &verifyData)` on a zero `VerificationPayload`: `null`
changes nothing, an object is decoded member by member and the first saved
type error is returned at the end, any other value is a type error. -/
def unmarshalVerification : JSON → Except JSONError VerificationPayload
  | .null => .ok { PlainToken := [], EventTs := [] }
  | .object members =>
    let r := members.foldl decodeVerificationMember ({ PlainToken := [], EventTs := [] }, true)
    if r.2 then .ok r.1 else .error .unmarshalType
  | _ => .error .unmarshalType

/-- One member of an object decoded into an `Author`. -/
def decodeAuthorMember (st : Author × Bool) (m : GoString × JSON) : Author × Bool :=
  match lookupField [bytesOf "id", bytesOf "user_openid", bytesOf "member_openid"] m.1 with
  | none => st
  | some tag =>
    if tag = bytesOf "id" then
      let r := decodeStringField st.1.ID m.2
      ({ st.1 with ID := r.1 }, st.2 && r.2)
    else if tag = bytesOf "user_openid" then
      let r := decodeStringField st.1.UserOpenID m.2
      ({ st.1 with UserOpenID := r.1 }, st.2 && r.2)
    else
      let r := decodeStringField st.1.MemberOpenID m.2
      ({ st.1 with MemberOpenID := r.1 }, st.2 && r.2)

/-- Decoding a JSON value into the `*Author` field holding `old`: `null` sets the
pointer to nil, an object is decoded into the pointed struct (a new one when
the pointer is nil), anything else is a type error. -/
def decodeAuthorField (old : Option Author) : JSON → Option Author × Bool
  | .null => (none, true)
  | .object members =>
    let start : Author := match old with
      | some a => a
      | none => { ID := [], UserOpenID := [], MemberOpenID := [] }
    let r := members.foldl decodeAuthorMember (start, true)
    (some r.1, r.2)
  | _ => (old, false)

/-- One member of an object decoded into an `EventPayload`. -/
def decodeEventMember (st : EventPayload × Bool) (m : GoString × JSON) : EventPayload × Bool :=
  match lookupField [bytesOf "group_id", bytesOf "group_openid", bytesOf "author",
      bytesOf "content", bytesOf "id", bytesOf "timestamp"] m.1 with
  | none => st
  | some tag =>
    if tag = bytesOf "group_id" then
      let r := decodeStringField st.1.GroupID m.2
      ({ st.1 with GroupID := r.1 }, st.2 && r.2)
    else if tag = bytesOf "group_openid" then
      let r := decodeStringField st.1.GroupOpenID m.2
      ({ st.1 with GroupOpenID := r.1 }, st.2 && r.2)
    else if tag = bytesOf "author" then
      let r := decodeAuthorField st.1.Author m.2
      ({ st.1 with Author := r.1 }, st.2 && r.2)
    else if tag = bytesOf "content" then
      let r := decodeStringField st.1.Content m.2
      ({ st.1 with Content := r.1 }, st.2 && r.2)
    else if tag = bytesOf "id" then
      let r := decodeStringField st.1.ID m.2
      ({ st.1 with ID := r.1 }, st.2 && r.2)
    else
      let r := decodeStringField st.1.Timestamp m.2
      ({ st.1 with Timestamp := r.1 }, st.2 && r.2)

/-- The zero value of `EventPayload`. -/
def EventPayload.zero : EventPayload :=
  { GroupID := [], GroupOpenID := [], Author := none, Content := [], ID := [], Timestamp := [] }

/-- The call `json.Unmarshal(data, &eventPayload)` on a zero `EventPayload`. -/
def unmarshalEvent : JSON → Except JSONError EventPayload
  | .null => .ok EventPayload.zero
  | .object members =>
    let r := members.foldl decodeEventMember (EventPayload.zero, true)
    if r.2 then .ok r.1 else .error .unmarshalType
  | _ => .error .unmarshalType

/-- The library `encoding/json` on values that came out of JSON: marshalling such a value
never fails, and the marshalled bytes are kept as the value they spell. -/
def encodingJSON : JSONCodec JSON where
  Marshal d := .ok d
  UnmarshalVerification := unmarshalVerification
  UnmarshalEvent := unmarshalEvent

/-! ## `internal/service/event.go` -/

/-- An error of an event handler. -/
structure ServiceError where
  msg : GoString
  deriving DecidableEq, Repr

/-- The event service as the webhook handler sees it: its method `Handle`. -/
structure EventService where
  Handle : EventType → EventPayload → Except ServiceError Unit

def handleGroupAtMessage (_payload : EventPayload) : Except ServiceError Unit := .ok ()
def handleC2cMessage (_payload : EventPayload) : Except ServiceError Unit := .ok ()
def handleFriendAdd (_payload : EventPayload) : Except ServiceError Unit := .ok ()
def handleFriendDel (_payload : EventPayload) : Except ServiceError Unit := .ok ()
def handleGroupAddRobot (_payload : EventPayload) : Except ServiceError Unit := .ok ()
def handleGroupDelRobot (_payload : EventPayload) : Except ServiceError Unit := .ok ()
def handleDirectMessage (_payload : EventPayload) : Except ServiceError Unit := .ok ()
def handleMessageCreate (_payload : EventPayload) : Except ServiceError Unit := .ok ()

/-- The method `(*EventService).Handle` of the repository: the `switch` on the event
type, with the `default` case returning `nil`. -/
def EventService.dispatch (eventType : EventType) (payload : EventPayload) :
    Except ServiceError Unit :=
  if eventType = GroupAtMessageCreate then handleGroupAtMessage payload
  else if eventType = C2cMessageCreate then handleC2cMessage payload
  else if eventType = FriendAdd then handleFriendAdd payload
  else if eventType = FriendDel then handleFriendDel payload
  else if eventType = GroupAddRobot then handleGroupAddRobot payload
  else if eventType = GroupDelRobot then handleGroupDelRobot payload
  else if eventType = DirectMessageCreate then handleDirectMessage payload
  else if eventType = MessageCreate then handleMessageCreate payload
  else .ok ()

/-- The function `NewEventService`. -/
def NewEventService : EventService := { Handle := EventService.dispatch }

/-! ## `internal/handler/webhook.go` -/

/-- The struct `WebhookHandler`. -/
structure WebhookHandler where
  signer : Signer
  eventService : EventService

/-- The function `NewWebhookHandler`. -/
def NewWebhookHandler (signer : Signer) (eventService : EventService) : WebhookHandler :=
  { signer := signer, eventService := eventService }

/-- An error of `c.Bind(&payload)`. -/
structure BindError where
  msg : GoString
  deriving DecidableEq, Repr

/-- What a handler did: the `c.JSON(status, body)` it answered with, and the calls it
made to `eventService.Handle`, in order. -/
structure HandlerResult where
  status : Nat
  body : JSON
  handled : List (EventType × EventPayload)

/-- The JSON of `map[string]string{"error": msg}`. -/
def errorBody (msg : GoString) : JSON := .object [(bytesOf "error", .string msg)]

/-- The method `handleVerification` (op = 13). -/
def WebhookHandler.handleVerification {Data : Type} (ed : Ed25519) (json : JSONCodec Data)
    (h : WebhookHandler) (payload : WebhookPayload) : HandlerResult :=
  match json.Marshal payload.D with
  | .error _ =>
    { status := StatusInternalServerError, body := errorBody (bytesOf "internal error"),
      handled := [] }
  | .ok data =>
    match json.UnmarshalVerification data with
    | .error _ =>
      { status := StatusBadRequest, body := errorBody (bytesOf "invalid verification payload"),
        handled := [] }
    | .ok verifyData =>
      match h.signer.SignVerification ed verifyData.EventTs verifyData.PlainToken with
      | .error _ =>
        { status := StatusInternalServerError,
          body := errorBody (bytesOf "failed to generate signature"), handled := [] }
      | .ok msgSig =>
        let response : VerificationResponse :=
          { PlainToken := verifyData.PlainToken, MsgSig := msgSig,
            ResponceTime := verifyData.EventTs }
        { status := StatusOK, body := response.toJSON, handled := [] }

/-- The method `handleEvent` (op = 0); `c.JSON(http.StatusOK, nil)` writes `null`. -/
def WebhookHandler.handleEvent {Data : Type} (json : JSONCodec Data) (h : WebhookHandler)
    (payload : WebhookPayload) : HandlerResult :=
  match json.Marshal payload.D with
  | .error _ => { status := StatusOK, body := .null, handled := [] }
  | .ok data =>
    match json.UnmarshalEvent data with
    | .error _ => { status := StatusOK, body := .null, handled := [] }
    | .ok eventPayload =>
      match h.eventService.Handle payload.T eventPayload with
      | .error _ => { status := StatusOK, body := .null, handled := [(payload.T, eventPayload)] }
      | .ok () => { status := StatusOK, body := .null, handled := [(payload.T, eventPayload)] }

/-- The method `HandleWebhook`, applied to what `c.Bind(&payload)` returns. -/
def WebhookHandler.HandleWebhook {Data : Type} (ed : Ed25519) (json : JSONCodec Data)
    (h : WebhookHandler) (bound : Except BindError WebhookPayload) : HandlerResult :=
  match bound with
  | .error _ =>
    { status := StatusBadRequest, body := errorBody (bytesOf "invalid json payload"),
      handled := [] }
  | .ok payload =>
    if payload.Op = 13 then h.handleVerification ed json payload
    else if payload.Op = 0 then h.handleEvent json payload
    else { status := StatusOK, body := .null, handled := [] }

/-! ## Specification vocabulary -/

/-- A byte that is a hexadecimal digit, in either case. -/
def IsHexDigit (c : Byte) : Prop :=
  (48 ≤ c.val ∧ c.val ≤ 57) ∨ (97 ≤ c.val ∧ c.val ≤ 102) ∨ (65 ≤ c.val ∧ c.val ≤ 70)

/-- A byte that is one of `0123456789abcdef`. -/
def IsLowerHexDigit (c : Byte) : Prop :=
  (48 ≤ c.val ∧ c.val ≤ 57) ∨ (97 ≤ c.val ∧ c.val ≤ 102)

/-- Valid hexadecimal text: an even number of hexadecimal digits. -/
def IsHexString (s : GoString) : Prop :=
  s.length % 2 = 0 ∧ ∀ c ∈ s, IsHexDigit c

instance (c : Byte) : Decidable (IsHexDigit c) := by unfold IsHexDigit; infer_instance
instance (c : Byte) : Decidable (IsLowerHexDigit c) := by unfold IsLowerHexDigit; infer_instance
instance (s : GoString) : Decidable (IsHexString s) := by unfold IsHexString; infer_instance

/-- Go's `strings.Repeat(s, k)`. -/
def repeatString (s : GoString) : Nat → GoString
  | 0 => []
  | k + 1 => s ++ repeatString s k

/-- The digit loop of `strconv.FormatUint(n, 10)`: digits are produced from the least
significant one; `fuel` bounds the number of digits (20 for a `uint64`). -/
def strconv.FormatUint.loop : Nat → Nat → List Byte → List Byte
  | 0, _, acc => acc
  | fuel + 1, n, acc =>
    if n < 10 then Fin.ofNat (48 + n) :: acc
    else strconv.FormatUint.loop fuel (n / 10) (Fin.ofNat (48 + n % 10) :: acc)

/-- Go's `strconv.FormatUint(n, 10)`, the decimal rendering of a `uint64`. -/
def strconv.FormatUint (n : Nat) : GoString := strconv.FormatUint.loop 20 n []

/-- Go's `strconv.FormatInt(t, 10)`, the decimal rendering of an `int64`. -/
def strconv.FormatInt (t : Int) : GoString :=
  if t < 0 then 45 :: strconv.FormatUint (-t).toNat else strconv.FormatUint t.toNat

/-- The signed distance, in nanoseconds, from the Unix second `t` to the instant `now`. -/
def time.Time.nanosSinceUnix (now : time.Time) (t : Int) : Int :=
  (now.sec - time.unixToInternal - t) * time.Second + now.nsec

/-- The Unix second of an instant, Go's `now.Unix()`. -/
def time.Time.unixSec (now : time.Time) : Int := now.sec - time.unixToInternal

/-- An instant a clock can report: its nanosecond field is in `[0, 999999999]` and it
lies within `2^62` seconds (146 billion years) of year 1. -/
def time.Time.InRange (now : time.Time) : Prop :=
  0 ≤ now.nsec ∧ now.nsec < 1000000000 ∧ -(2 ^ 62) ≤ now.sec ∧ now.sec ≤ 2 ^ 62

instance (now : time.Time) : Decidable now.InRange := by
  unfold time.Time.InRange; infer_instance

/-! ## Lemmas: `encoding/hex` -/

theorem reverseHexTable_le_iff (c : Byte) : hex.reverseHexTable c ≤ 15 ↔ IsHexDigit c := by
  unfold hex.reverseHexTable IsHexDigit
  split_ifs <;> omega

set_option maxRecDepth 100000 in
theorem hex_byte_roundtrip : ∀ v : Byte,
    hex.reverseHexTable (hex.hextable.getD (v.val >>> 4) 0) = v.val >>> 4 ∧
    hex.reverseHexTable (hex.hextable.getD (v.val &&& 15) 0) = v.val &&& 15 ∧
    v.val >>> 4 ≤ 15 ∧ v.val &&& 15 ≤ 15 ∧
    Fin.ofNat ((v.val >>> 4) <<< 4 ||| (v.val &&& 15)) = v ∧
    IsLowerHexDigit (hex.hextable.getD (v.val >>> 4) 0) ∧
    IsLowerHexDigit (hex.hextable.getD (v.val &&& 15) 0) := by
  decide

theorem DecodeString_EncodeToString (bs : List Byte) :
    hex.DecodeString (hex.EncodeToString bs) = .ok bs := by
  induction bs with
  | nil => rfl
  | cons v rest ih =>
    obtain ⟨h1, h2, h3, h4, h5, -, -⟩ := hex_byte_roundtrip v
    simp only [hex.EncodeToString, hex.DecodeString, h1, h2, ih]
    rw [if_neg (by omega), if_neg (by omega), h5]

theorem EncodeToString_length (bs : List Byte) :
    (hex.EncodeToString bs).length = 2 * bs.length := by
  induction bs with
  | nil => rfl
  | cons v rest ih => simp only [hex.EncodeToString, List.length_cons, ih]; omega

theorem EncodeToString_lower (bs : List Byte) :
    ∀ c ∈ hex.EncodeToString bs, IsLowerHexDigit c := by
  induction bs with
  | nil => intro c hc; simp [hex.EncodeToString] at hc
  | cons v rest ih =>
    obtain ⟨-, -, -, -, -, h6, h7⟩ := hex_byte_roundtrip v
    intro c hc
    simp only [hex.EncodeToString, List.mem_cons] at hc
    rcases hc with rfl | rfl | hc
    · exact h6
    · exact h7
    · exact ih c hc

theorem DecodeString_ok_length : ∀ (n : Nat) (s : GoString) (bs : List Byte), s.length ≤ n →
    hex.DecodeString s = .ok bs → s.length = 2 * bs.length ∧ IsHexString s := by
  intro n
  induction n with
  | zero =>
    intro s bs hn h
    have : s = [] := List.length_eq_zero.mp (by omega)
    subst this
    simp only [hex.DecodeString, Except.ok.injEq] at h
    subst h
    exact ⟨rfl, rfl, by simp⟩
  | succ n ih =>
    intro s bs hn h
    match s, h with
    | [], h =>
      simp only [hex.DecodeString, Except.ok.injEq] at h
      subst h
      exact ⟨rfl, rfl, by simp⟩
    | [p], h =>
      simp only [hex.DecodeString] at h
      split_ifs at h
    | p :: q :: rest, h =>
      simp only [hex.DecodeString] at h
      split_ifs at h with hp hq
      cases hrest : hex.DecodeString rest with
      | error e => rw [hrest] at h; simp at h
      | ok bs' =>
        rw [hrest] at h
        simp only [Except.ok.injEq] at h
        subst h
        have hlen : rest.length ≤ n := by simp only [List.length_cons] at hn; omega
        obtain ⟨h1, h2, h3⟩ := ih rest bs' hlen hrest
        refine ⟨by simp only [List.length_cons]; omega, by simp only [List.length_cons]; omega, ?_⟩
        intro c hc
        simp only [List.mem_cons] at hc
        rcases hc with rfl | rfl | hc
        · exact (reverseHexTable_le_iff _).mp (by omega)
        · exact (reverseHexTable_le_iff _).mp (by omega)
        · exact h3 c hc

theorem DecodeString_of_isHexString : ∀ (n : Nat) (s : GoString), s.length ≤ n →
    IsHexString s → ∃ bs, hex.DecodeString s = .ok bs := by
  intro n
  induction n with
  | zero =>
    intro s hn _
    have : s = [] := List.length_eq_zero.mp (by omega)
    subst this
    exact ⟨[], rfl⟩
  | succ n ih =>
    intro s hn hs
    match s, hs with
    | [], _ => exact ⟨[], rfl⟩
    | [p], hs => exact absurd hs.1 (by simp)
    | p :: q :: rest, hs =>
      obtain ⟨hlen, hdig⟩ := hs
      have hp := (reverseHexTable_le_iff p).mpr (hdig p (by simp))
      have hq := (reverseHexTable_le_iff q).mpr (hdig q (by simp))
      have hrest : IsHexString rest := by
        refine ⟨?_, fun c hc => hdig c (by simp [hc])⟩
        simp only [List.length_cons] at hlen
        omega
      obtain ⟨bs, hbs⟩ := ih rest (by simp only [List.length_cons] at hn; omega) hrest
      refine ⟨Fin.ofNat (hex.reverseHexTable p <<< 4 ||| hex.reverseHexTable q) :: bs, ?_⟩
      simp only [hex.DecodeString, hbs]
      rw [if_neg (by omega), if_neg (by omega)]

theorem DecodeString_error_of_not_hex (s : GoString) (h : ¬ IsHexString s) :
    ∃ e, hex.DecodeString s = .error e := by
  cases hd : hex.DecodeString s with
  | error e => exact ⟨e, rfl⟩
  | ok bs => exact absurd (DecodeString_ok_length s.length s bs le_rfl hd).2 h

/-! ## Lemmas: seed derivation -/

theorem deriveLoop_length (b : List Byte) : ∀ (n i : Nat) (seed : List Byte),
    (deriveKeyFromSecret.loop b n i seed).length = seed.length := by
  intro n
  induction n with
  | zero => intro i seed; rfl
  | succ n ih => intro i seed; simp only [deriveKeyFromSecret.loop, ih, List.length_set]

theorem deriveLoop_getElem? (b : List Byte) : ∀ (n i : Nat) (seed : List Byte) (j : Nat),
    i + n ≤ seed.length →
    (deriveKeyFromSecret.loop b n i seed)[j]? =
      if i ≤ j ∧ j < i + n then some (b.getD (j % b.length) 0) else seed[j]? := by
  intro n
  induction n with
  | zero =>
    intro i seed j _
    simp only [deriveKeyFromSecret.loop]
    rw [if_neg (by omega)]
  | succ n ih =>
    intro i seed j h
    simp only [deriveKeyFromSecret.loop]
    rw [ih (i + 1) _ j (by simp only [List.length_set]; omega), List.getElem?_set]
    by_cases hij : i = j
    · subst hij
      rw [if_neg (by omega), if_pos rfl, if_pos (by omega), if_pos (by omega)]
    · rw [if_neg hij]
      by_cases hj : i + 1 ≤ j ∧ j < i + 1 + n
      · rw [if_pos hj, if_pos (by omega)]
      · rw [if_neg hj, if_neg (by omega)]

/-- The seed in closed form: byte `i` is `secret[i mod len]`. -/
theorem deriveKeyFromSecret_eq_map (secret : GoString) (h : secret ≠ []) :
    deriveKeyFromSecret secret =
      .ok ((List.range 32).map fun i => secret.getD (i % secret.length) 0) := by
  simp only [deriveKeyFromSecret, if_neg h, SeedSize]
  refine congrArg Except.ok ?_
  apply List.ext_getElem?
  intro j
  rw [deriveLoop_getElem? _ _ _ _ _ (by simp)]
  by_cases hj : j < 32
  · rw [if_pos (by omega)]
    simp [List.getElem?_map, List.getElem?_range hj]
  · rw [if_neg (by omega)]
    rw [List.getElem?_eq_none (by simp; omega), List.getElem?_eq_none (by simp; omega)]

theorem repeatString_length (s : GoString) (k : Nat) :
    (repeatString s k).length = k * s.length := by
  induction k with
  | zero => simp [repeatString]
  | succ k ih => simp only [repeatString, List.length_append, ih]; ring

theorem repeatString_getD (s : GoString) : ∀ (k j : Nat), j < k * s.length →
    (repeatString s k).getD j 0 = s.getD (j % s.length) 0 := by
  intro k
  induction k with
  | zero => intro j hj; omega
  | succ k ih =>
    intro j hj
    simp only [repeatString]
    by_cases hjs : j < s.length
    · rw [List.getD_append _ _ _ _ hjs, Nat.mod_eq_of_lt hjs]
    · have hle : s.length ≤ j := by omega
      rw [List.getD_append_right _ _ _ _ hle, ih (j - s.length) (by
        have : (k + 1) * s.length = k * s.length + s.length := by ring
        omega)]
      congr 1
      rw [Nat.mod_eq_sub_mod hle]

theorem deriveKeyFromSecret_congr (s₁ s₂ : GoString) (h₁ : s₁ ≠ []) (h₂ : s₂ ≠ [])
    (h : ∀ i < 32, s₁.getD (i % s₁.length) 0 = s₂.getD (i % s₂.length) 0) :
    deriveKeyFromSecret s₁ = deriveKeyFromSecret s₂ := by
  rw [deriveKeyFromSecret_eq_map s₁ h₁, deriveKeyFromSecret_eq_map s₂ h₂]
  refine congrArg Except.ok ?_
  apply List.map_congr_left
  intro i hi
  exact h i (List.mem_range.mp hi)

theorem deriveKeyFromSecret_repeat (s : GoString) (k : Nat) (hs : s ≠ []) (hk : 1 ≤ k) :
    deriveKeyFromSecret (repeatString s k) = deriveKeyFromSecret s := by
  have hpos : 0 < s.length := List.length_pos.mpr hs
  have hlen := repeatString_length s k
  have hkpos : 0 < k * s.length := Nat.mul_pos (by omega) hpos
  have hne : repeatString s k ≠ [] := by
    intro h0
    have h1 := congrArg List.length h0
    rw [hlen, List.length_nil] at h1
    omega
  apply deriveKeyFromSecret_congr _ _ hne hs
  intro i _
  rw [repeatString_getD s k _ (by rw [hlen]; exact Nat.mod_lt _ hkpos), hlen,
    Nat.mod_mul_left_mod]

theorem deriveKeyFromSecret_long (s : GoString) (h : 32 ≤ s.length) :
    deriveKeyFromSecret s = .ok (s.take 32) := by
  have hne : s ≠ [] := by intro h0; rw [h0] at h; simp at h
  rw [deriveKeyFromSecret_eq_map s hne]
  refine congrArg Except.ok ?_
  apply List.ext_getElem?
  intro j
  by_cases hj : j < 32
  · simp only [List.getElem?_map, List.getElem?_range hj, Option.map_some',
      List.getElem?_take_of_lt hj]
    rw [Nat.mod_eq_of_lt (by omega), List.getD_eq_getElem?_getD,
      List.getElem?_eq_getElem (by omega)]
    rfl
  · rw [List.getElem?_eq_none (by simp; omega), List.getElem?_eq_none (by simp; omega)]

theorem NewSigner_eq_of_seed_eq (ed : Ed25519) (s₁ s₂ : GoString) (h₁ : s₁ ≠ []) (h₂ : s₂ ≠ [])
    (h : deriveKeyFromSecret s₁ = deriveKeyFromSecret s₂) :
    NewSigner ed s₁ = NewSigner ed s₂ := by
  simp only [NewSigner, if_neg h₁, if_neg h₂, h]

theorem NewSigner_ok (ed : Ed25519) (secret : GoString) (s : Signer)
    (h : NewSigner ed secret = .ok s) :
    ∃ seed, seed.length = SeedSize ∧ deriveKeyFromSecret secret = .ok seed ∧
      s.privateKey = ed.NewKeyFromSeed seed ∧
      s.publicKey = ed.Public (ed.NewKeyFromSeed seed) := by
  unfold NewSigner at h
  split_ifs at h with hne
  rw [deriveKeyFromSecret_eq_map secret hne] at h ⊢
  simp only [Except.ok.injEq] at h
  subst h
  exact ⟨_, by simp [SeedSize], rfl, rfl, rfl⟩

theorem toyEd25519_lawful : toyEd25519.Lawful where
  sign_length := by intro priv msg; simp [toyEd25519, toyTag, SignatureSize]
  verify_sign := by intro seed msg _; simp [toyEd25519]

/-! ## Lemmas: `strconv` -/

theorem digit_val (d : Nat) (h : d < 10) : (Fin.ofNat (48 + d) : Byte).val = 48 + d := by
  show (48 + d) % 256 = 48 + d
  omega

theorem ParseUint_loop_digit (d : Nat) (hd : d < 10) (cs : List Byte) (m : Nat)
    (h : m * 10 + d < 2 ^ 64) :
    strconv.ParseUint.loop ((Fin.ofNat (48 + d) : Byte) :: cs) m =
      strconv.ParseUint.loop cs (m * 10 + d) := by
  have hv := digit_val d hd
  simp only [strconv.ParseUint.loop, hv, strconv.maxUint64]
  rw [if_pos (by omega), if_neg (by omega)]
  have e : 48 + d - 48 = d := by omega
  rw [e, Nat.mod_eq_of_lt h, if_neg (by omega)]

theorem ParseUint_loop_format : ∀ (fuel n : Nat) (acc : List Byte), n < 10 ^ fuel → n < 2 ^ 64 →
    strconv.ParseUint.loop (strconv.FormatUint.loop fuel n acc) 0 =
      strconv.ParseUint.loop acc n := by
  intro fuel
  induction fuel with
  | zero =>
    intro n acc h _
    have : n = 0 := by simpa using h
    subst this
    rfl
  | succ fuel ih =>
    intro n acc h h64
    simp only [strconv.FormatUint.loop]
    split_ifs with h10
    · rw [ParseUint_loop_digit n h10 acc 0 (by omega)]
      simp
    · have hdiv : n / 10 < 10 ^ fuel := by
        rw [Nat.div_lt_iff_lt_mul (by norm_num)]
        rw [pow_succ] at h
        exact h
      rw [ih (n / 10) _ hdiv (by omega),
        ParseUint_loop_digit (n % 10) (Nat.mod_lt _ (by norm_num)) acc (n / 10) (by omega)]
      congr 1
      omega

theorem FormatUint_loop_head : ∀ (fuel n : Nat) (acc : List Byte),
    ∃ c rest, strconv.FormatUint.loop (fuel + 1) n acc = c :: rest ∧ 48 ≤ c.val ∧ c.val ≤ 57 := by
  intro fuel
  induction fuel with
  | zero =>
    intro n acc
    simp only [strconv.FormatUint.loop]
    split_ifs with h10
    · exact ⟨_, _, rfl, by rw [digit_val n h10]; omega⟩
    · exact ⟨_, _, rfl, by rw [digit_val _ (Nat.mod_lt _ (by norm_num))]; omega⟩
  | succ fuel ih =>
    intro n acc
    rw [strconv.FormatUint.loop]
    split_ifs with h10
    · exact ⟨_, _, rfl, by rw [digit_val n h10]; omega⟩
    · exact ih _ _

theorem ParseUint_FormatUint (n : Nat) (h : n < 2 ^ 64) :
    strconv.ParseUint (strconv.FormatUint n) = .ok n := by
  obtain ⟨c, rest, hcr, -⟩ := FormatUint_loop_head 19 n []
  have hne : strconv.FormatUint n ≠ [] := by
    unfold strconv.FormatUint
    rw [hcr]
    exact List.cons_ne_nil _ _
  unfold strconv.ParseUint
  rw [if_neg hne]
  unfold strconv.FormatUint
  rw [ParseUint_loop_format 20 n [] (by norm_num at h ⊢; omega) h]
  rfl

theorem ParseInt_minus (rest : List Byte) (un : Nat) (h : strconv.ParseUint rest = .ok un)
    (hle : un ≤ 2 ^ 63) : strconv.ParseInt (45 :: rest) = .ok (-(un : Int)) := by
  have h43 : ((45 : Byte).val = 43) = False := eq_false (by decide)
  have h45 : ((45 : Byte).val = 45) = True := eq_true rfl
  simp only [strconv.ParseInt, h43, h45, if_false, if_true, h, decide_True]
  rw [if_neg (by simp), if_neg (by simp), if_neg (by simp; omega)]

theorem ParseInt_digits (c : Byte) (rest : List Byte) (un : Nat) (hc : 48 ≤ c.val)
    (h : strconv.ParseUint (c :: rest) = .ok un) (hlt : un < 2 ^ 63) :
    strconv.ParseInt (c :: rest) = .ok (un : Int) := by
  have h43 : (c.val = 43) = False := eq_false (by omega)
  have h45 : (c.val = 45) = False := eq_false (by omega)
  simp only [strconv.ParseInt, h43, h45, if_false, h, decide_False]
  rw [if_neg (by simp), if_neg (by simp; omega), if_neg (by simp)]
  simp

/-- Parsing the decimal rendering of an `int64` gives the integer back. -/
theorem ParseInt_FormatInt (t : Int) (hlo : -(2 ^ 63) ≤ t) (hhi : t < 2 ^ 63) :
    strconv.ParseInt (strconv.FormatInt t) = .ok t := by
  by_cases hneg : t < 0
  · have hp := ParseUint_FormatUint (-t).toNat (by omega)
    simp only [strconv.FormatInt, if_pos hneg]
    rw [ParseInt_minus _ _ hp (by omega)]
    congr 1
    omega
  · have hp := ParseUint_FormatUint t.toNat (by omega)
    obtain ⟨c, rest, hcr, hc1, -⟩ := FormatUint_loop_head 19 t.toNat []
    have hfmt : strconv.FormatUint t.toNat = c :: rest := hcr
    simp only [strconv.FormatInt, if_neg hneg]
    rw [hfmt] at hp ⊢
    rw [ParseInt_digits c rest _ hc1 hp (by omega)]
    congr 1
    omega

/-! ## Lemmas: `validateTimestamp` -/

theorem Unix_of_representable (t : Int) (hlo : -(2 ^ 63) ≤ t + time.unixToInternal)
    (hhi : t + time.unixToInternal < 2 ^ 63) :
    time.Unix t = { sec := t + time.unixToInternal, nsec := 0 } := by
  unfold time.Unix time.wrapInt64
  congr 1
  omega

theorem validateTimestamp_parse_error (now : time.Time) (s : GoString) (e : strconv.NumError)
    (h : strconv.ParseInt s = .error e) : validateTimestamp now s = .error (.parse e) := by
  simp only [validateTimestamp, h]

/-- Inside the window: a parsed timestamp at most 300 s from `now` is accepted. -/
theorem validateTimestamp_within (now : time.Time) (s : GoString) (t : Int)
    (hparse : strconv.ParseInt s = .ok t)
    (hlo : -(2 ^ 63) ≤ t + time.unixToInternal) (hhi : t + time.unixToInternal < 2 ^ 63)
    (hd : |now.nanosSinceUnix t| ≤ 300 * time.Second) :
    validateTimestamp now s = .ok () := by
  rw [abs_le] at hd
  simp only [validateTimestamp, hparse, Unix_of_representable t hlo hhi, time.Time.Sub,
    time.Time.nanosSinceUnix, time.Second, time.Minute, time.minDuration, time.maxDuration,
    time.wrapInt64, time.unixToInternal] at hd ⊢
  norm_num at hd ⊢
  split_ifs <;> first | rfl | omega

/-- Outside the window, as long as `now - t` is above `minDuration`: rejected. -/
theorem validateTimestamp_beyond (now : time.Time) (s : GoString) (t : Int)
    (hparse : strconv.ParseInt s = .ok t)
    (hlo : -(2 ^ 63) ≤ t + time.unixToInternal) (hhi : t + time.unixToInternal < 2 ^ 63)
    (hd : 300 * time.Second < |now.nanosSinceUnix t|)
    (hmin : time.minDuration < now.nanosSinceUnix t) :
    validateTimestamp now s = .error .expired := by
  rw [lt_abs] at hd
  simp only [validateTimestamp, hparse, Unix_of_representable t hlo hhi, time.Time.Sub,
    time.Time.nanosSinceUnix, time.Second, time.Minute, time.minDuration, time.maxDuration,
    time.wrapInt64, time.unixToInternal] at hd hmin ⊢
  norm_num at hd hmin ⊢
  split_ifs <;> first | rfl | omega

/-- At or below `minDuration` (a timestamp more than about 292 years after `now`):
`Sub` saturates, the negation wraps, and the timestamp is accepted. -/
theorem validateTimestamp_saturated (now : time.Time) (s : GoString) (t : Int)
    (hparse : strconv.ParseInt s = .ok t)
    (hlo : -(2 ^ 63) ≤ t + time.unixToInternal) (hhi : t + time.unixToInternal < 2 ^ 63)
    (hmin : now.nanosSinceUnix t ≤ time.minDuration) :
    validateTimestamp now s = .ok () := by
  simp only [validateTimestamp, hparse, Unix_of_representable t hlo hhi, time.Time.Sub,
    time.Time.nanosSinceUnix, time.Second, time.Minute, time.minDuration, time.maxDuration,
    time.wrapInt64, time.unixToInternal] at hmin ⊢
  norm_num at hmin ⊢
  split_ifs <;> first | rfl | omega

/-- The timestamps `validateTimestamp` accepts, among those `time.Unix` represents
without wrap-around: the ones at most 300 s from `now`, and the ones so far
after `now` that `now - t` is at or below `minDuration`. -/
theorem validateTimestamp_ok_iff (now : time.Time) (s : GoString) (t : Int)
    (hparse : strconv.ParseInt s = .ok t)
    (hlo : -(2 ^ 63) ≤ t + time.unixToInternal) (hhi : t + time.unixToInternal < 2 ^ 63) :
    validateTimestamp now s = .ok () ↔
      |now.nanosSinceUnix t| ≤ 300 * time.Second ∨ now.nanosSinceUnix t ≤ time.minDuration := by
  constructor
  · intro hok
    by_contra hcon
    push_neg at hcon
    rw [validateTimestamp_beyond now s t hparse hlo hhi hcon.1 hcon.2] at hok
    cases hok
  · rintro (h | h)
    · exact validateTimestamp_within now s t hparse hlo hhi h
    · exact validateTimestamp_saturated now s t hparse hlo hhi h

/-! ## Lemmas: the signer -/

theorem NewSigner_nonempty (ed : Ed25519) (secret : GoString) (h : secret ≠ []) :
    ∃ seed, deriveKeyFromSecret secret = .ok seed ∧ seed.length = SeedSize ∧
      NewSigner ed secret =
        .ok { privateKey := ed.NewKeyFromSeed seed,
              publicKey := ed.Public (ed.NewKeyFromSeed seed) } := by
  have hd := deriveKeyFromSecret_eq_map secret h
  refine ⟨_, hd, by simp [SeedSize], ?_⟩
  simp only [NewSigner, if_neg h, hd]

theorem VerifySignature_decoded (ed : Ed25519) (s : Signer) (timestamp : GoString)
    (body : List Byte) (signatureHex : GoString) (sig : List Byte)
    (hdec : hex.DecodeString signatureHex = .ok sig) (hlen : sig.length = SignatureSize) :
    s.VerifySignature ed timestamp body signatureHex =
      if ed.Verify s.publicKey (timestamp ++ body) sig then .ok () else .error .verificationFailed := by
  simp only [Signer.VerifySignature, hdec, hlen, ne_eq, not_true_eq_false, if_false]
  cases ed.Verify s.publicKey (timestamp ++ body) sig <;> simp

theorem VerifySignature_of_sign (ed : Ed25519) (hed : ed.Lawful) (s : Signer)
    (timestamp : GoString) (body : List Byte) (eventTs plainToken : GoString) :
    s.VerifySignature ed timestamp body
        (hex.EncodeToString (ed.Sign s.privateKey (eventTs ++ plainToken))) =
      if ed.Verify s.publicKey (timestamp ++ body) (ed.Sign s.privateKey (eventTs ++ plainToken))
      then .ok () else .error .verificationFailed :=
  VerifySignature_decoded ed s timestamp body _ _ (DecodeString_EncodeToString _)
    (hed.sign_length _ _)

theorem VerifySignature_same_message (ed : Ed25519) (hed : ed.Lawful) (secret : GoString)
    (s : Signer) (hs : NewSigner ed secret = .ok s) (timestamp : GoString) (body : List Byte)
    (eventTs plainToken : GoString) (hmsg : timestamp ++ body = eventTs ++ plainToken) :
    s.VerifySignature ed timestamp body
        (hex.EncodeToString (ed.Sign s.privateKey (eventTs ++ plainToken))) = .ok () := by
  obtain ⟨seed, hseed, -, hpriv, hpub⟩ := NewSigner_ok ed secret s hs
  rw [VerifySignature_of_sign ed hed, hmsg, hpriv, hpub, hed.verify_sign seed _ hseed]
  rfl

/-! ## Claims on the signer -/

/-- C5: `deriveKeyFromSecret` fails exactly on the empty secret; on a non-empty
secret of length `L` it returns a 32-byte seed with `seed[i] = secret[i mod L]`
for every `i < 32`, hence `seed[i] = seed[i+L]` whenever `i + L < 32`; the secret
`"abc"` gives `"abcabc…"` cut to 32 bytes, ending in `"ab"`. -/
theorem deriveKeyFromSecret_spec (secret : GoString) :
    ((∃ e, deriveKeyFromSecret secret = .error e) ↔ secret = []) ∧
    (secret ≠ [] → ∃ seed, deriveKeyFromSecret secret = .ok seed ∧ seed.length = 32 ∧
      (∀ i, i < 32 → ∃ b, seed[i]? = some b ∧ secret[i % secret.length]? = some b) ∧
      (∀ i, i + secret.length < 32 → ∃ b, seed[i]? = some b ∧ seed[i + secret.length]? = some b)) ∧
    deriveKeyFromSecret (bytesOf "abc") = .ok (bytesOf "abcabcabcabcabcabcabcabcabcabcab") := by
  have key : ∀ s : GoString, s ≠ [] → ∀ i, i < 32 →
      ((List.range 32).map fun i => s.getD (i % s.length) 0)[i]? = s[i % s.length]? ∧
      ∃ b, s[i % s.length]? = some b := by
    intro s hs i hi
    have hpos : 0 < s.length := List.length_pos.mpr hs
    have hlt : i % s.length < s.length := Nat.mod_lt _ hpos
    simp only [List.getElem?_map, List.getElem?_range hi, Option.map_some',
      List.getD_eq_getElem?_getD, List.getElem?_eq_getElem hlt, Option.getD_some]
    exact ⟨trivial, _, rfl⟩
  refine ⟨⟨?_, ?_⟩, ?_, by decide⟩
  · rintro ⟨e, he⟩
    by_contra hne
    rw [deriveKeyFromSecret_eq_map secret hne] at he
    cases he
  · rintro rfl
    exact ⟨.emptySecret, rfl⟩
  · intro hne
    refine ⟨_, deriveKeyFromSecret_eq_map secret hne, by simp, ?_, ?_⟩
    · intro i hi
      obtain ⟨h1, b, h2⟩ := key secret hne i hi
      exact ⟨b, h1.trans h2, h2⟩
    · intro i hi
      obtain ⟨h1, b, h2⟩ := key secret hne i (by omega)
      obtain ⟨h3, -⟩ := key secret hne (i + secret.length) hi
      refine ⟨b, h1.trans h2, ?_⟩
      rw [h3, Nat.add_mod_right]
      exact h2

/-- The statement of C5 at the secret `"abc"`. -/
theorem deriveKeyFromSecret_spec_witness :
    bytesOf "abc" ≠ [] ∧
    ∃ seed, deriveKeyFromSecret (bytesOf "abc") = .ok seed ∧ seed.length = 32 ∧
      (∀ i, i < 32 → ∃ b, seed[i]? = some b ∧
        (bytesOf "abc")[i % (bytesOf "abc").length]? = some b) ∧
      (∀ i, i + (bytesOf "abc").length < 32 →
        ∃ b, seed[i]? = some b ∧ seed[i + (bytesOf "abc").length]? = some b) :=
  ⟨by decide, (deriveKeyFromSecret_spec (bytesOf "abc")).2.1 (by decide)⟩

/-- C10: seed derivation is not injective.  A non-empty secret repeated `k ≥ 1`
times derives the seed (and the signer) of the secret itself, e.g. `"abcabc"` and
`"abc"`; a secret of 32 or more bytes derives its first 32 bytes; and two secrets
with the same first 32 bytes derive the same seed and the same key pair in
`NewSigner`. -/
theorem deriveKeyFromSecret_collisions (ed : Ed25519) :
    (∀ (s : GoString) (k : Nat), s ≠ [] → 1 ≤ k →
      deriveKeyFromSecret (repeatString s k) = deriveKeyFromSecret s ∧
      NewSigner ed (repeatString s k) = NewSigner ed s) ∧
    deriveKeyFromSecret (bytesOf "abcabc") = deriveKeyFromSecret (bytesOf "abc") ∧
    (∀ s : GoString, 32 ≤ s.length → deriveKeyFromSecret s = .ok (s.take 32)) ∧
    (∀ s₁ s₂ : GoString, s₁ ≠ [] → s₁.take 32 = s₂.take 32 →
      ∃ seed signer, deriveKeyFromSecret s₁ = .ok seed ∧ deriveKeyFromSecret s₂ = .ok seed ∧
        NewSigner ed s₁ = .ok signer ∧ NewSigner ed s₂ = .ok signer) := by
  refine ⟨?_, by decide, deriveKeyFromSecret_long, ?_⟩
  · intro s k hs hk
    have hd := deriveKeyFromSecret_repeat s k hs hk
    have hne : repeatString s k ≠ [] := by
      intro h0
      have h1 := congrArg List.length h0
      rw [repeatString_length, List.length_nil] at h1
      have : 0 < k * s.length := Nat.mul_pos (by omega) (List.length_pos.mpr hs)
      omega
    exact ⟨hd, NewSigner_eq_of_seed_eq ed _ _ hne hs hd⟩
  · intro s₁ s₂ h₁ htake
    have h₂ : s₂ ≠ [] := by
      rintro rfl
      rw [List.take_nil] at htake
      have hl := congrArg List.length htake
      rw [List.length_take, List.length_nil] at hl
      have : 0 < s₁.length := List.length_pos.mpr h₁
      omega
    have hseed : deriveKeyFromSecret s₁ = deriveKeyFromSecret s₂ := by
      by_cases hlen : 32 ≤ s₁.length
      · have hl := congrArg List.length htake
        rw [List.length_take, List.length_take] at hl
        rw [deriveKeyFromSecret_long s₁ hlen, deriveKeyFromSecret_long s₂ (by omega), htake]
      · have hl := congrArg List.length htake
        rw [List.length_take, List.length_take] at hl
        have e₁ : s₁.take 32 = s₁ := List.take_of_length_le (by omega)
        have e₂ : s₂.take 32 = s₂ := List.take_of_length_le (by omega)
        rw [e₁, e₂] at htake
        rw [htake]
    obtain ⟨seed, hd, -, hn⟩ := NewSigner_nonempty ed s₁ h₁
    exact ⟨seed, _, hd, hseed ▸ hd, hn, (NewSigner_eq_of_seed_eq ed _ _ h₁ h₂ hseed) ▸ hn⟩

/-- The statement of C10 at the secrets `"abc"`, repeated twice, and two 33-byte
secrets that differ in their last byte only. -/
theorem deriveKeyFromSecret_collisions_witness :
    (deriveKeyFromSecret (repeatString (bytesOf "abc") 2) = deriveKeyFromSecret (bytesOf "abc") ∧
      NewSigner toyEd25519 (repeatString (bytesOf "abc") 2) =
        NewSigner toyEd25519 (bytesOf "abc")) ∧
    ∃ seed signer,
      deriveKeyFromSecret (bytesOf "0123456789abcdef0123456789abcdefX") = .ok seed ∧
      deriveKeyFromSecret (bytesOf "0123456789abcdef0123456789abcdefY") = .ok seed ∧
      NewSigner toyEd25519 (bytesOf "0123456789abcdef0123456789abcdefX") = .ok signer ∧
      NewSigner toyEd25519 (bytesOf "0123456789abcdef0123456789abcdefY") = .ok signer :=
  ⟨(deriveKeyFromSecret_collisions toyEd25519).1 (bytesOf "abc") 2 (by decide) (by decide),
   (deriveKeyFromSecret_collisions toyEd25519).2.2.2 _ _ (by decide) (by decide)⟩

/-- C1: `VerifySignature` returns an error when the signature text is not valid
hexadecimal or does not decode to 64 bytes (128 digits); otherwise it returns an
error exactly when `ed25519.Verify` rejects the decoded signature for the
message `timestamp ++ body` under the signer's public key, and `nil` otherwise. -/
theorem VerifySignature_spec (ed : Ed25519) (s : Signer) (timestamp : GoString)
    (body : List Byte) (signatureHex : GoString) :
    (¬ IsHexString signatureHex ∨ signatureHex.length ≠ 128 →
      ∃ e, s.VerifySignature ed timestamp body signatureHex = .error e) ∧
    (IsHexString signatureHex → signatureHex.length = 128 →
      ∃ sig, hex.DecodeString signatureHex = .ok sig ∧ sig.length = 64 ∧
        ((∃ e, s.VerifySignature ed timestamp body signatureHex = .error e) ↔
          ed.Verify s.publicKey (timestamp ++ body) sig = false) ∧
        (ed.Verify s.publicKey (timestamp ++ body) sig = true →
          s.VerifySignature ed timestamp body signatureHex = .ok ())) := by
  constructor
  · intro h
    cases hd : hex.DecodeString signatureHex with
    | error e =>
      exact ⟨.invalidSignatureFormat e, by simp only [Signer.VerifySignature, hd]⟩
    | ok sig =>
      obtain ⟨hl, hx⟩ := DecodeString_ok_length _ _ _ le_rfl hd
      have hne : sig.length ≠ SignatureSize := by
        rcases h with h | h
        · exact absurd hx h
        · unfold SignatureSize; omega
      exact ⟨.invalidSignatureLength SignatureSize sig.length, by
        simp only [Signer.VerifySignature, hd, hne, ne_eq, not_false_eq_true, if_true]⟩
  · intro hx hl
    obtain ⟨sig, hd⟩ := DecodeString_of_isHexString _ _ le_rfl hx
    have hsl : sig.length = 64 := by
      have := (DecodeString_ok_length _ _ _ le_rfl hd).1
      omega
    have hv := VerifySignature_decoded ed s timestamp body signatureHex sig hd hsl
    refine ⟨sig, hd, hsl, ?_, ?_⟩
    · rw [hv]
      cases ed.Verify s.publicKey (timestamp ++ body) sig <;> simp
    · intro ht
      rw [hv, ht]
      rfl

set_option maxRecDepth 100000 in
/-- The statement of C1 at a signature of 128 zero digits and a signer with the
key `"k"`. -/
theorem VerifySignature_spec_witness :
    IsHexString (List.replicate 128 48) ∧ (List.replicate 128 (48 : Byte)).length = 128 ∧
    ∃ sig, hex.DecodeString (List.replicate 128 48) = .ok sig ∧ sig.length = 64 ∧
      ((∃ e, Signer.VerifySignature toyEd25519
          { privateKey := bytesOf "k", publicKey := bytesOf "k" }
          (bytesOf "1700000000") (bytesOf "body") (List.replicate 128 48) = .error e) ↔
        toyEd25519.Verify (bytesOf "k") (bytesOf "1700000000" ++ bytesOf "body") sig = false) ∧
      (toyEd25519.Verify (bytesOf "k") (bytesOf "1700000000" ++ bytesOf "body") sig = true →
        Signer.VerifySignature toyEd25519
          { privateKey := bytesOf "k", publicKey := bytesOf "k" }
          (bytesOf "1700000000") (bytesOf "body") (List.replicate 128 48) = .ok ()) :=
  ⟨by decide, by decide,
   (VerifySignature_spec toyEd25519 { privateKey := bytesOf "k", publicKey := bytesOf "k" }
      (bytesOf "1700000000") (bytesOf "body") (List.replicate 128 48)).2 (by decide) (by decide)⟩

/-- C9: `SignVerification` never returns an error; its result is the hex encoding
of `ed25519.Sign(privateKey, eventTs ++ plainToken)`, is 128 characters long,
all of them in `0123456789abcdef`, and decodes back to exactly the 64 signature
bytes. -/
theorem SignVerification_spec (ed : Ed25519) (hed : ed.Lawful) (s : Signer)
    (eventTs plainToken : GoString) :
    ∃ str, s.SignVerification ed eventTs plainToken = .ok str ∧
      str = hex.EncodeToString (ed.Sign s.privateKey (eventTs ++ plainToken)) ∧
      str.length = 128 ∧ (∀ c ∈ str, IsLowerHexDigit c) ∧
      hex.DecodeString str = .ok (ed.Sign s.privateKey (eventTs ++ plainToken)) ∧
      (ed.Sign s.privateKey (eventTs ++ plainToken)).length = 64 := by
  have hl := hed.sign_length s.privateKey (eventTs ++ plainToken)
  refine ⟨_, rfl, rfl, ?_, EncodeToString_lower _, DecodeString_EncodeToString _, hl⟩
  rw [EncodeToString_length, hl]
  rfl

/-- The statement of C9 for the toy scheme, the signer of `"abc"` and the
challenge `("1700000000", "tok1")`. -/
theorem SignVerification_spec_witness :
    toyEd25519.Lawful ∧
    ∃ str, Signer.SignVerification toyEd25519
        { privateKey := bytesOf "kk", publicKey := bytesOf "k" }
        (bytesOf "1700000000") (bytesOf "tok1") = .ok str ∧
      str = hex.EncodeToString (toyEd25519.Sign (bytesOf "kk")
        (bytesOf "1700000000" ++ bytesOf "tok1")) ∧
      str.length = 128 ∧ (∀ c ∈ str, IsLowerHexDigit c) ∧
      hex.DecodeString str = .ok (toyEd25519.Sign (bytesOf "kk")
        (bytesOf "1700000000" ++ bytesOf "tok1")) ∧
      (toyEd25519.Sign (bytesOf "kk") (bytesOf "1700000000" ++ bytesOf "tok1")).length = 64 :=
  ⟨toyEd25519_lawful,
   SignVerification_spec toyEd25519 toyEd25519_lawful
     { privateKey := bytesOf "kk", publicKey := bytesOf "k" } (bytesOf "1700000000")
     (bytesOf "tok1")⟩

/-- C7 (as stated) fails: for every lawful Ed25519, the signer of the secret
`"abc"` accepts, for timestamp `"1700000000"` and body `"tok1"`, the signature
`SignVerification("1700000000", "tok1")` returns, since both sign the same
bytes. -/
theorem handshake_signature_accepted :
    toyEd25519.Lawful ∧
    ∀ ed : Ed25519, ed.Lawful →
      ∃ s sig, NewSigner ed (bytesOf "abc") = .ok s ∧
        s.SignVerification ed (bytesOf "1700000000") (bytesOf "tok1") = .ok sig ∧
        s.VerifySignature ed (bytesOf "1700000000") (bytesOf "tok1") sig = .ok () := by
  refine ⟨toyEd25519_lawful, ?_⟩
  intro ed hed
  obtain ⟨seed, -, -, hn⟩ := NewSigner_nonempty ed (bytesOf "abc") (by decide)
  exact ⟨_, _, hn, rfl, VerifySignature_same_message ed hed _ _ hn _ _ _ _ rfl⟩

/-- C7 (amended): for a signer made by `NewSigner`, `VerifySignature(timestamp,
body, sig)` with `sig` the result of `SignVerification(eventTs, plainToken)`
returns `nil` exactly when `ed25519.Verify` accepts the signature of
`eventTs ++ plainToken` for the message `timestamp ++ body`, an error otherwise;
it returns `nil` whenever the two byte strings coincide. -/
theorem VerifySignature_SignVerification (ed : Ed25519) (hed : ed.Lawful) (secret : GoString)
    (s : Signer) (hs : NewSigner ed secret = .ok s) (timestamp : GoString) (body : List Byte)
    (eventTs plainToken : GoString) :
    ∃ sig, s.SignVerification ed eventTs plainToken = .ok sig ∧
      (s.VerifySignature ed timestamp body sig = .ok () ↔
        ed.Verify s.publicKey (timestamp ++ body)
          (ed.Sign s.privateKey (eventTs ++ plainToken)) = true) ∧
      (ed.Verify s.publicKey (timestamp ++ body)
          (ed.Sign s.privateKey (eventTs ++ plainToken)) = false →
        s.VerifySignature ed timestamp body sig = .error .verificationFailed) ∧
      (timestamp ++ body = eventTs ++ plainToken →
        s.VerifySignature ed timestamp body sig = .ok ()) := by
  refine ⟨_, rfl, ?_, ?_, VerifySignature_same_message ed hed secret s hs _ _ _ _⟩
  · rw [VerifySignature_of_sign ed hed]
    cases ed.Verify s.publicKey (timestamp ++ body)
      (ed.Sign s.privateKey (eventTs ++ plainToken)) <;> simp
  · intro hf
    rw [VerifySignature_of_sign ed hed, hf]
    rfl

set_option maxRecDepth 100000 in
/-- The statement of C7 (amended) for the toy scheme and the signer of `"abc"`, with
the handshake challenge `("1700000000", "tok1")` checked against the delivery
`("1700000000", "tok1")`. -/
theorem VerifySignature_SignVerification_witness :
    toyEd25519.Lawful ∧
    NewSigner toyEd25519 (bytesOf "abc") =
      .ok { privateKey := bytesOf "abcabcabcabcabcabcabcabcabcabcab" ++
              bytesOf "abcabcabcabcabcabcabcabcabcabcab",
            publicKey := bytesOf "abcabcabcabcabcabcabcabcabcabcab" } ∧
    ∃ sig, Signer.SignVerification toyEd25519
        { privateKey := bytesOf "abcabcabcabcabcabcabcabcabcabcab" ++
            bytesOf "abcabcabcabcabcabcabcabcabcabcab",
          publicKey := bytesOf "abcabcabcabcabcabcabcabcabcabcab" }
        (bytesOf "1700000000") (bytesOf "tok1") = .ok sig ∧
      Signer.VerifySignature toyEd25519
        { privateKey := bytesOf "abcabcabcabcabcabcabcabcabcabcab" ++
            bytesOf "abcabcabcabcabcabcabcabcabcabcab",
          publicKey := bytesOf "abcabcabcabcabcabcabcabcabcabcab" }
        (bytesOf "1700000000") (bytesOf "tok1") sig = .ok () :=
  ⟨toyEd25519_lawful, by decide,
   let ⟨sig, h1, _, _, h4⟩ :=
     VerifySignature_SignVerification toyEd25519 toyEd25519_lawful (bytesOf "abc")
       { privateKey := bytesOf "abcabcabcabcabcabcabcabcabcabcab" ++
           bytesOf "abcabcabcabcabcabcabcabcabcabcab",
         publicKey := bytesOf "abcabcabcabcabcabcabcabcabcabcab" }
       (by decide) (bytesOf "1700000000") (bytesOf "tok1") (bytesOf "1700000000")
       (bytesOf "tok1")
   ⟨sig, h1, h4 rfl⟩⟩

/-! ## Claims on the replay guard -/

theorem window_representable (now : time.Time) (hnow : now.InRange) (t : Int)
    (hd : |now.nanosSinceUnix t| ≤ 302 * time.Second) :
    -(2 ^ 63) ≤ t ∧ t < 2 ^ 63 ∧ -(2 ^ 63) ≤ t + time.unixToInternal ∧
      t + time.unixToInternal < 2 ^ 63 := by
  rw [abs_le] at hd
  obtain ⟨h1, h2, h3, h4⟩ := hnow
  simp only [time.Time.nanosSinceUnix, time.Second, time.unixToInternal] at hd ⊢
  norm_num at hd h3 h4 ⊢
  omega

theorem validateTimestamp_format_within (now : time.Time) (hnow : now.InRange) (t : Int)
    (hd : |now.nanosSinceUnix t| ≤ 300 * time.Second) :
    validateTimestamp now (strconv.FormatInt t) = .ok () := by
  have hd' : |now.nanosSinceUnix t| ≤ 302 * time.Second :=
    le_trans hd (by unfold time.Second; norm_num)
  obtain ⟨h1, h2, h3, h4⟩ := window_representable now hnow t hd'
  exact validateTimestamp_within now _ t (ParseInt_FormatInt t h1 h2) h3 h4 hd

theorem validateTimestamp_format_beyond (now : time.Time) (hnow : now.InRange) (t : Int)
    (hlo : 300 * time.Second < |now.nanosSinceUnix t|)
    (hhi : |now.nanosSinceUnix t| ≤ 302 * time.Second) :
    validateTimestamp now (strconv.FormatInt t) = .error .expired := by
  obtain ⟨h1, h2, h3, h4⟩ := window_representable now hnow t hhi
  refine validateTimestamp_beyond now _ t (ParseInt_FormatInt t h1 h2) h3 h4 hlo ?_
  rw [abs_le] at hhi
  have := hhi.1
  simp only [time.Second, time.minDuration] at this ⊢
  norm_num at this ⊢
  omega

/-- C4: for an instant `now` and an integer Unix second `t` at most 300 s away from
it, `validateTimestamp` on the decimal rendering of `t` returns `nil`; the
timestamps exactly 300 s before and after `now` pass, those 301 s before and
after fail, and a string `strconv.ParseInt` rejects fails. -/
theorem validateTimestamp_window (now : time.Time) (hnow : now.InRange) :
    (∀ t : Int, |now.nanosSinceUnix t| ≤ 300 * time.Second →
      validateTimestamp now (strconv.FormatInt t) = .ok ()) ∧
    (now.nsec = 0 →
      validateTimestamp now (strconv.FormatInt (now.unixSec - 300)) = .ok () ∧
      validateTimestamp now (strconv.FormatInt (now.unixSec + 300)) = .ok ()) ∧
    validateTimestamp now (strconv.FormatInt (now.unixSec - 301)) = .error .expired ∧
    validateTimestamp now (strconv.FormatInt (now.unixSec + 301)) = .error .expired ∧
    (∀ s e, strconv.ParseInt s = .error e → validateTimestamp now s = .error (.parse e)) := by
  have hn := hnow
  obtain ⟨h1, h2, -, -⟩ := hn
  refine ⟨validateTimestamp_format_within now hnow, ?_, ?_, ?_,
    fun s e h => validateTimestamp_parse_error now s e h⟩
  · intro h0
    constructor
    · apply validateTimestamp_format_within now hnow
      rw [abs_le]
      simp only [time.Time.nanosSinceUnix, time.Time.unixSec, time.Second, h0]
      constructor <;> omega
    · apply validateTimestamp_format_within now hnow
      rw [abs_le]
      simp only [time.Time.nanosSinceUnix, time.Time.unixSec, time.Second, h0]
      constructor <;> omega
  · apply validateTimestamp_format_beyond now hnow
    · rw [lt_abs]
      left
      simp only [time.Time.nanosSinceUnix, time.Time.unixSec, time.Second]
      omega
    · rw [abs_le]
      simp only [time.Time.nanosSinceUnix, time.Time.unixSec, time.Second]
      constructor <;> omega
  · apply validateTimestamp_format_beyond now hnow
    · rw [lt_abs]
      right
      simp only [time.Time.nanosSinceUnix, time.Time.unixSec, time.Second]
      omega
    · rw [abs_le]
      simp only [time.Time.nanosSinceUnix, time.Time.unixSec, time.Second]
      constructor <;> omega

/-- The statement of C4 at the instant 1700000000 s after the Unix epoch. -/
theorem validateTimestamp_window_witness :
    time.Time.InRange { sec := 1700000000 + time.unixToInternal, nsec := 0 } ∧
    (∀ t : Int,
      |time.Time.nanosSinceUnix { sec := 1700000000 + time.unixToInternal, nsec := 0 } t|
        ≤ 300 * time.Second →
      validateTimestamp { sec := 1700000000 + time.unixToInternal, nsec := 0 }
        (strconv.FormatInt t) = .ok ()) ∧
    validateTimestamp { sec := 1700000000 + time.unixToInternal, nsec := 0 }
      (bytesOf "12a") = .error (.parse .ErrSyntax) :=
  ⟨by decide,
   (validateTimestamp_window { sec := 1700000000 + time.unixToInternal, nsec := 0 }
      (by decide)).1,
   (validateTimestamp_window { sec := 1700000000 + time.unixToInternal, nsec := 0 }
      (by decide)).2.2.2.2 (bytesOf "12a") .ErrSyntax (by decide)⟩

/-- C3 fails on the code: with `now` 1700000000 s after the Unix epoch, the timestamp
`"20000000000"` parses, lies about 580 years (far more than 5 minutes) in the
future, and `validateTimestamp` returns `nil`: `now.Sub` saturates at
`minDuration`, whose `int64` negation is again negative.  The timestamp as far
in the past, `"-16600000000"`, is rejected. -/
theorem validateTimestamp_far_future_accepted :
    strconv.ParseInt (bytesOf "20000000000") = .ok 20000000000 ∧
    time.Time.nanosSinceUnix { sec := 1700000000 + time.unixToInternal, nsec := 0 } 20000000000
      < -(5 * time.Minute) ∧
    validateTimestamp { sec := 1700000000 + time.unixToInternal, nsec := 0 }
      (bytesOf "20000000000") = .ok () ∧
    validateTimestamp { sec := 1700000000 + time.unixToInternal, nsec := 0 }
      (bytesOf "-16600000000") = .error .expired := by
  decide

/-! ## Claims on the middleware -/

set_option maxRecDepth 100000 in
/-- C2 (as stated) fails: a request to `/webhook` with both headers, a fresh
timestamp and the malformed signature `"zz"`, whose body cannot be read, is
answered with status 400, not 401, whatever the signer. -/
theorem SignatureMiddleware_unreadable_body :
    ¬ IsHexString (bytesOf "zz") ∧
    ∀ (ed : Ed25519) (signer : Signer),
      SignatureMiddleware ed signer { sec := 1700000000 + time.unixToInternal, nsec := 0 }
        { path := bytesOf "/webhook",
          header := [(bytesOf "X-Signature-Timestamp", bytesOf "1700000000"),
                     (bytesOf "X-Signature-Ed25519", bytesOf "zz")],
          body := .error { msg := bytesOf "unexpected EOF" } } =
        .json 400 (bytesOf "failed to read request body") :=
  ⟨by decide, fun _ _ => rfl⟩

/-- C2 (amended): on a request to `/webhook` the middleware calls `next` exactly when
both headers are non-empty, `validateTimestamp` accepts the timestamp, the body
can be read, and `VerifySignature` accepts (timestamp, body, signature); a
missing header or a rejected timestamp gives 401; after these checks an
unreadable body gives 400; a readable body with a rejected signature gives 401. -/
theorem SignatureMiddleware_spec (ed : Ed25519) (signer : Signer) (now : time.Time)
    (req : Request) (hpath : req.path = bytesOf "/webhook") :
    ((∃ r, SignatureMiddleware ed signer now req = .next r) ↔
      req.headerGet (bytesOf "X-Signature-Timestamp") ≠ [] ∧
      req.headerGet (bytesOf "X-Signature-Ed25519") ≠ [] ∧
      validateTimestamp now (req.headerGet (bytesOf "X-Signature-Timestamp")) = .ok () ∧
      ∃ body, req.body = .ok body ∧
        signer.VerifySignature ed (req.headerGet (bytesOf "X-Signature-Timestamp")) body
          (req.headerGet (bytesOf "X-Signature-Ed25519")) = .ok ()) ∧
    (req.headerGet (bytesOf "X-Signature-Timestamp") = [] ∨
      req.headerGet (bytesOf "X-Signature-Ed25519") = [] ∨
      (∃ e, validateTimestamp now (req.headerGet (bytesOf "X-Signature-Timestamp")) = .error e) →
      ∃ msg, SignatureMiddleware ed signer now req = .json 401 msg) ∧
    (req.headerGet (bytesOf "X-Signature-Timestamp") ≠ [] →
      req.headerGet (bytesOf "X-Signature-Ed25519") ≠ [] →
      validateTimestamp now (req.headerGet (bytesOf "X-Signature-Timestamp")) = .ok () →
      ((∃ e, req.body = .error e) →
        SignatureMiddleware ed signer now req =
          .json 400 (bytesOf "failed to read request body")) ∧
      (∀ body, req.body = .ok body →
        (∃ e, signer.VerifySignature ed (req.headerGet (bytesOf "X-Signature-Timestamp")) body
          (req.headerGet (bytesOf "X-Signature-Ed25519")) = .error e) →
        SignatureMiddleware ed signer now req =
          .json 401 (bytesOf "signature verification failed"))) := by
  have hp : ¬ (req.path ≠ bytesOf "/webhook") := by simp [hpath]
  simp only [SignatureMiddleware, if_neg hp]
  by_cases hts : req.headerGet (bytesOf "X-Signature-Timestamp") = []
  · simp [hts, StatusUnauthorized]
  by_cases hsig : req.headerGet (bytesOf "X-Signature-Ed25519") = []
  · simp [hsig, StatusUnauthorized]
  have hor : ¬ (req.headerGet (bytesOf "X-Signature-Timestamp") = [] ∨
      req.headerGet (bytesOf "X-Signature-Ed25519") = []) := by
    rintro (h | h)
    · exact hts h
    · exact hsig h
  rw [if_neg hor]
  cases hv : validateTimestamp now (req.headerGet (bytesOf "X-Signature-Timestamp")) with
  | error e => simp [hts, hsig, StatusUnauthorized]
  | ok u =>
    cases u
    cases hb : req.body with
    | error e => simp [hts, hsig, StatusBadRequest]
    | ok body =>
      cases hs : signer.VerifySignature ed (req.headerGet (bytesOf "X-Signature-Timestamp"))
          body (req.headerGet (bytesOf "X-Signature-Ed25519")) with
      | error e => simp [hts, hsig, hs, StatusUnauthorized]
      | ok u => cases u; simp [hts, hsig, hs]

/-- The statement of C2 (amended) at a request whose headers are both missing. -/
theorem SignatureMiddleware_spec_witness :
    (bytesOf "/webhook" = bytesOf "/webhook") ∧
    ∃ msg, SignatureMiddleware toyEd25519 { privateKey := [], publicKey := [] }
        { sec := 1700000000 + time.unixToInternal, nsec := 0 }
        { path := bytesOf "/webhook", header := [], body := .ok [] } = .json 401 msg :=
  ⟨rfl,
   (SignatureMiddleware_spec toyEd25519 { privateKey := [], publicKey := [] }
      { sec := 1700000000 + time.unixToInternal, nsec := 0 }
      { path := bytesOf "/webhook", header := [], body := .ok [] } rfl).2.1 (Or.inl rfl)⟩

/-! ## Claims on the webhook handler -/

/-- C6 on the code: for op = 13 and `d = {"plain_token": p, "event_ts": e}` the
handler answers 200 with the object `plain_token = p`, `msg_sig` = the hex
signature of `SignVerification(e, p)`, and a third member that holds `e` under
the key `responsce_time` (the struct tag); `responce_time` is not among the keys. -/
theorem handleVerification_response (ed : Ed25519) (h : WebhookHandler) (id s : Nat)
    (t p e : GoString) :
    (h.HandleWebhook ed encodingJSON
        (.ok { ID := id, Op := 13, S := s, T := t,
               D := .object [(bytesOf "event_ts", .string e),
                             (bytesOf "plain_token", .string p)] })).status = 200 ∧
    (h.HandleWebhook ed encodingJSON
        (.ok { ID := id, Op := 13, S := s, T := t,
               D := .object [(bytesOf "event_ts", .string e),
                             (bytesOf "plain_token", .string p)] })).body =
      .object [(bytesOf "plain_token", .string p),
               (bytesOf "msg_sig",
                 .string (hex.EncodeToString (ed.Sign h.signer.privateKey (e ++ p)))),
               (bytesOf "responsce_time", .string e)] ∧
    h.signer.SignVerification ed e p =
      .ok (hex.EncodeToString (ed.Sign h.signer.privateKey (e ++ p))) ∧
    (h.HandleWebhook ed encodingJSON
        (.ok { ID := id, Op := 13, S := s, T := t,
               D := .object [(bytesOf "event_ts", .string e),
                             (bytesOf "plain_token", .string p)] })).body.keys =
      some [bytesOf "plain_token", bytesOf "msg_sig", bytesOf "responsce_time"] ∧
    bytesOf "responce_time" ∉
      [bytesOf "plain_token", bytesOf "msg_sig", bytesOf "responsce_time"] := by
  refine ⟨rfl, rfl, rfl, rfl, by decide⟩

/-- C8: for a bound envelope whose op is not 13, `HandleWebhook` answers 200 with the
JSON body `null`, whatever `json.Marshal`, `json.Unmarshal` and
`eventService.Handle` return; for an op other than 0 (and 13) the event service
is not called, and for op = 0 it is called at most once, with the type `t`. -/
theorem HandleWebhook_acknowledges {Data : Type} (ed : Ed25519) (json : JSONCodec Data)
    (h : WebhookHandler) (payload : WebhookPayload) (hop : payload.Op ≠ 13) :
    (h.HandleWebhook ed json (.ok payload)).status = 200 ∧
    (h.HandleWebhook ed json (.ok payload)).body = .null ∧
    (payload.Op ≠ 0 → (h.HandleWebhook ed json (.ok payload)).handled = []) ∧
    (∀ call ∈ (h.HandleWebhook ed json (.ok payload)).handled, call.1 = payload.T) ∧
    (h.HandleWebhook ed json (.ok payload)).handled.length ≤ 1 := by
  simp only [WebhookHandler.HandleWebhook, if_neg hop]
  by_cases h0 : payload.Op = 0
  · simp only [if_pos h0, WebhookHandler.handleEvent]
    cases hm : json.Marshal payload.D with
    | error e => simp [StatusOK, h0]
    | ok data =>
      cases hu : json.UnmarshalEvent data with
      | error e => simp [StatusOK, h0, hu]
      | ok ev =>
        cases hh : h.eventService.Handle payload.T ev with
        | error e => simp [StatusOK, h0, hu, hh]
        | ok u => simp [StatusOK, h0, hu, hh]
  · simp [if_neg h0, StatusOK]

/-- The statement of C8 at three envelopes: op = 0 with the unknown type
`UNKNOWN_FUTURE_TYPE`, op = 0 with a payload that does not decode and a
service that always fails, and op = 7. -/
theorem HandleWebhook_acknowledges_witness :
    ((0 : Nat) ≠ 13 ∧ (7 : Nat) ≠ 13) ∧
    ((NewWebhookHandler { privateKey := [], publicKey := [] } NewEventService).HandleWebhook
        toyEd25519 encodingJSON
        (.ok { ID := 1, Op := 0, D := .object [(bytesOf "content", .string (bytesOf "hi"))],
               S := 1, T := bytesOf "UNKNOWN_FUTURE_TYPE" })).body = .null ∧
    ((NewWebhookHandler { privateKey := [], publicKey := [] }
        { Handle := fun _ _ => .error { msg := bytesOf "boom" } }).HandleWebhook
        toyEd25519 encodingJSON
        (.ok { ID := 1, Op := 0, D := .string (bytesOf "not an object"),
               S := 1, T := GroupAtMessageCreate })).status = 200 ∧
    ((NewWebhookHandler { privateKey := [], publicKey := [] } NewEventService).HandleWebhook
        toyEd25519 encodingJSON
        (.ok { ID := 1, Op := 7, D := .null, S := 1, T := [] })).handled = [] :=
  ⟨⟨by decide, by decide⟩,
   (HandleWebhook_acknowledges toyEd25519 encodingJSON
      (NewWebhookHandler { privateKey := [], publicKey := [] } NewEventService)
      { ID := 1, Op := 0, D := .object [(bytesOf "content", .string (bytesOf "hi"))],
        S := 1, T := bytesOf "UNKNOWN_FUTURE_TYPE" } (by decide)).2.1,
   (HandleWebhook_acknowledges toyEd25519 encodingJSON
      (NewWebhookHandler { privateKey := [], publicKey := [] }
        { Handle := fun _ _ => .error { msg := bytesOf "boom" } })
      { ID := 1, Op := 0, D := .string (bytesOf "not an object"),
        S := 1, T := GroupAtMessageCreate } (by decide)).1,
   (HandleWebhook_acknowledges toyEd25519 encodingJSON
      (NewWebhookHandler { privateKey := [], publicKey := [] } NewEventService)
      { ID := 1, Op := 7, D := .null, S := 1, T := [] } (by decide)).2.2.1 (by decide)⟩

end GoQQBot
